import Mathlib

/-
Verification of the schemaperfect / altair_parser core: the JSON-Schema
node wrapper, reference resolver, classifier dispatch and validator
semantics.  Definitions are shallow embeddings of the Python source in
src/altair_parser/jsonschema.py; the validator descriptors (jstraitlets)
are modelled from the specification, since only their tests appear in
the source tree.
-/

namespace Schemaperfect

/-- A parsed JSON value: the raw schema fragments that `JSONSchema` wraps.
Numbers are modelled as rationals so that integral and non-integral
numerics are distinguished. -/
inductive JSON where
  | null : JSON
  | bool (b : Bool) : JSON
  | num (q : Rat) : JSON
  | str (s : String) : JSON
  | arr (xs : List JSON) : JSON
  | obj (kvs : List (String × JSON)) : JSON
deriving Repr

namespace JSON

/-- Look up a key in an object fragment's key/value list (Python `dict` access:
first binding wins; well-formed fragments have no duplicate keys). -/
def lookup (k : String) : List (String × JSON) → Option JSON
  | [] => none
  | (k', v) :: rest => if k' = k then some v else lookup k rest

/-- `schema.get(key)` on a fragment: `none` when the fragment is not an
object or lacks the key. -/
def get (j : JSON) (k : String) : Option JSON :=
  match j with
  | .obj kvs => lookup k kvs
  | _ => none

/-- `key in schema` on a fragment. -/
def hasKey (j : JSON) (k : String) : Bool :=
  (j.get k).isSome

/-- Is this fragment a mapping (`dict`)? -/
def isObj : JSON → Bool
  | .obj _ => true
  | _ => false

/-- `tuple(schema.keys())`: the raw keyword set of a fragment, used in
classifier diagnostics. -/
def keys : JSON → List String
  | .obj kvs => kvs.map Prod.fst
  | _ => []

end JSON

/-- The error outcomes of the core, one constructor per raised Python
exception site: the `ValueError`s of `JSONSchema.__init__` and
`JSONSchema.get_reference`, the classifier's no-match `ValueError`,
the `AttributeError` of `__getattr__`, and the `TypeError`/`KeyError`
that Python raises when the reference walk indexes a non-`dict`. -/
inductive SchemaError where
  | notADict : SchemaError
  | emptyReference : SchemaError
  | invalidRefFormat (ref : String) : SchemaError
  | unresolvedRef (ref : String) : SchemaError
  | keyError : SchemaError
  | typeError : SchemaError
  | noExtractor (keys : List String) : SchemaError
  | attributeError (attr : String) : SchemaError
deriving DecidableEq, Repr

/-- The Schema Node: `JSONSchema.__init__`'s stored state.  `context = none`
means the node is a root that is its own context (Python
`self.context = context or self`); `parent = none` means no parent. -/
inductive JSONSchema where
  | mk (schema : JSON) (module : Option String) (context : Option JSONSchema)
       (parent : Option JSONSchema) (name : Option String) (metadata : JSON)
       : JSONSchema
deriving Repr

namespace JSONSchema

/-- The wrapped raw fragment (`self.schema`). -/
def schema : JSONSchema → JSON
  | .mk s _ _ _ _ _ => s

/-- `self.module`. -/
def module : JSONSchema → Option String
  | .mk _ m _ _ _ _ => m

/-- `self.context` as stored: `none` when the node is its own context. -/
def context : JSONSchema → Option JSONSchema
  | .mk _ _ c _ _ _ => c

/-- `self.parent`. -/
def parent : JSONSchema → Option JSONSchema
  | .mk _ _ _ p _ _ => p

/-- `self.name`. -/
def name : JSONSchema → Option String
  | .mk _ _ _ _ n _ => n

/-- `self.metadata` (already defaulted to the empty mapping). -/
def metadata : JSONSchema → JSON
  | .mk _ _ _ _ _ md => md

/-- The node `self.context` evaluates to in Python: the stored context,
or the node itself when it is a root. -/
def contextNode (s : JSONSchema) : JSONSchema :=
  (s.context).getD s

/-- `JSONSchema.__init__`: rejects non-`dict` fragments with
`ValueError("schema should be supplied as a dict")`; `metadata or {}`
defaults absent metadata to the empty mapping. -/
def init (schema : JSON) (module : Option String) (context : Option JSONSchema)
    (parent : Option JSONSchema) (name : Option String) (metadata : Option JSON) :
    Except SchemaError JSONSchema :=
  if schema.isObj then
    .ok (.mk schema module context parent name (metadata.getD (.obj [])))
  else
    .error .notADict

/-- `JSONSchema.make_child`: wrap a sub-fragment with the same module, the
invoking node's context, and the invoking node as parent. -/
def makeChild (s : JSONSchema) (schema : JSON) (name : Option String)
    (metadata : Option JSON) : Except SchemaError JSONSchema :=
  init schema s.module (some s.contextNode) (some s) name metadata

/-- `JSONSchema.copy`: rebuild the node from its own stored arguments,
optionally overriding any of them (each `some` override replaces the
stored value). -/
def copy (s : JSONSchema) (schema? : Option JSON) (module? : Option (Option String))
    (context? : Option (Option JSONSchema)) (parent? : Option (Option JSONSchema))
    (name? : Option (Option String)) (metadata? : Option JSON) :
    Except SchemaError JSONSchema :=
  init (schema?.getD s.schema) (module?.getD s.module)
       ((context?.getD (some s.contextNode)))
       (parent?.getD s.parent) (name?.getD s.name)
       (some (metadata?.getD s.metadata))

/-- `JSONSchema.attr_defaults`: the JSON-Schema keyword defaults served by
`__getattr__` when the wrapped fragment omits the keyword. -/
def attrDefaults : List (String × JSON) :=
  [("title", .str ""),
   ("description", .str ""),
   ("properties", .obj []),
   ("definitions", .obj []),
   ("default", .null),
   ("examples", .obj []),
   ("type", .str "object"),
   ("required", .arr []),
   ("additionalProperties", .bool true)]

/-- `JSONSchema.__getattr__`: keywords in `attr_defaults` fall back to the
fragment's value or the default; anything else raises `AttributeError`. -/
def getattr (s : JSONSchema) (a : String) : Except SchemaError JSON :=
  match JSON.lookup a attrDefaults with
  | some d => .ok ((s.schema.get a).getD d)
  | none => .error (.attributeError a)

/-- `self.type` as the predicates read it: the fragment's `type` value, or
the default `"object"`. -/
def typeAttr (s : JSONSchema) : JSON :=
  (s.schema.get "type").getD (.str "object")

end JSONSchema

/-- Is this fragment exactly the given string?  Captures Python's
`value == 'somestring'` comparison (any non-string compares unequal). -/
def JSON.isStr (j : JSON) (t : String) : Bool :=
  match j with
  | .str u => u = t
  | _ => false

/-- The reference walk of `JSONSchema.get_reference`: index the raw fragment
through the path segments.  A `dict` lacking the key raises `KeyError`
(caught by the caller); indexing any non-`dict` value with a string key
raises `TypeError` (uncaught in the source). -/
def walkPath : JSON → List String → Except SchemaError JSON
  | j, [] => .ok j
  | .obj kvs, k :: rest =>
    match JSON.lookup k kvs with
    | some v => walkPath v rest
    | none => .error .keyError
  | _, _ :: _ => .error .typeError

/-- Split a character list at every occurrence of `c`, keeping empty
segments: the behavior of Python's `str.split(sep)` with an explicit
separator. -/
def splitOnChar (c : Char) : List Char → List (List Char)
  | [] => [[]]
  | x :: xs =>
    match splitOnChar c xs with
    | [] => []
    | seg :: rest => if x = c then [] :: seg :: rest else (x :: seg) :: rest

/-- `ref.split('/')` from `JSONSchema.get_reference`. -/
def refSplit (ref : String) : List String :=
  (splitOnChar '/' ref.toList).map String.mk

namespace JSONSchema

/-- `JSONSchema.get_reference`: resolve a `$ref` string against the context
root.  An empty reference and a non-`#`-rooted reference raise
`ValueError`s; `#` alone, or a reference whose second slash-separated
segment is empty, returns the context node; otherwise the walk's fragment
is wrapped via `make_child` with the final segment as name.  A `KeyError`
from the walk is converted to the unresolved-reference `ValueError`. -/
def getReference (s : JSONSchema) (ref : String) : Except SchemaError JSONSchema :=
  if ref = "" then .error .emptyReference
  else
    let path := refSplit ref
    let name := path.getLastD ""
    if (path.headD "") ≠ "#" then .error (.invalidRefFormat ref)
    else if path.length = 1 ∨ path[1]? = some "" then .ok s.contextNode
    else
      match walkPath s.contextNode.schema path.tail with
      | .ok frag => s.makeChild frag (some name) none
      | .error .keyError => .error (.unresolvedRef ref)
      | .error e => .error e

/-- `JSONSchema.wrapped_ref`: resolve this node's own `$ref` value.  A
missing `$ref` key raises `KeyError`; a non-string `$ref` value makes the
`split` call raise (modelled as the type error). -/
def wrappedRef (s : JSONSchema) : Except SchemaError JSONSchema :=
  match s.schema.get "$ref" with
  | some (.str r) => s.getReference r
  | some _ => .error .typeError
  | none => .error .keyError

end JSONSchema

/-- The branch loop shared by the recursive predicates: Python's
`all(make_child(spec).predicate() for spec in branches)`, which
short-circuits on the first `False` and propagates the first raised
error.  `recurse` is the predicate applied to each wrapped branch;
`none` models a recursion that exhausts the fuel. -/
def branchAll (recurse : JSONSchema → Option (Except SchemaError Bool))
    (s : JSONSchema) : List JSON → Option (Except SchemaError Bool)
  | [] => some (.ok true)
  | x :: xs =>
    match s.makeChild x none none with
    | .error e => some (.error e)
    | .ok c =>
      match recurse c with
      | none => none
      | some (.error e) => some (.error e)
      | some (.ok false) => some (.ok false)
      | some (.ok true) => branchAll recurse s xs

/-- A composition keyword's branch list: Python iterates `self[key]`; only a
list iterates as schema fragments (iterating any other value either raises
or feeds `make_child` non-`dict` entries — modelled as the type error). -/
def branchList (s : JSONSchema) (k : String) : Except SchemaError (List JSON) :=
  match s.schema.get k with
  | some (.arr xs) => .ok xs
  | _ => .error .typeError

/-- `JSONSchema.really_is_trait`, with explicit fuel: `none` means the
recursion exceeded the fuel (the source recurses without any guard,
so a cyclic reference consumes any amount of fuel). -/
def reallyIsTrait : Nat → JSONSchema → Option (Except SchemaError Bool)
  | 0, _ => none
  | fuel+1, s =>
    if s.typeAttr.isStr "object" then
      if s.schema.hasKey "properties" then some (.ok false)
      else if s.schema.hasKey "$ref" then
        match s.wrappedRef with
        | .ok t => reallyIsTrait fuel t
        | .error e => some (.error e)
      else if s.schema.hasKey "anyOf" then
        match branchList s "anyOf" with
        | .ok xs => branchAll (fun c => reallyIsTrait fuel c) s xs
        | .error e => some (.error e)
      else if s.schema.hasKey "allOf" then
        match branchList s "allOf" with
        | .ok xs => branchAll (fun c => reallyIsTrait fuel c) s xs
        | .error e => some (.error e)
      else if s.schema.hasKey "oneOf" then
        match branchList s "oneOf" with
        | .ok xs => branchAll (fun c => reallyIsTrait fuel c) s xs
        | .error e => some (.error e)
      else some (.ok false)
    else some (.ok true)

/-- `JSONSchema.really_is_object`, with explicit fuel: `none` means the
recursion exceeded the fuel. -/
def reallyIsObject : Nat → JSONSchema → Option (Except SchemaError Bool)
  | 0, _ => none
  | fuel+1, s =>
    if s.schema.hasKey "properties" then some (.ok true)
    else if s.schema.hasKey "$ref" then
      match s.wrappedRef with
      | .ok t => reallyIsObject fuel t
      | .error e => some (.error e)
    else if s.schema.hasKey "anyOf" then
      match branchList s "anyOf" with
      | .ok xs => branchAll (fun c => reallyIsObject fuel c) s xs
      | .error e => some (.error e)
    else if s.schema.hasKey "allOf" then
      match branchList s "allOf" with
      | .ok xs => branchAll (fun c => reallyIsObject fuel c) s xs
      | .error e => some (.error e)
    else if s.schema.hasKey "oneOf" then
      match branchList s "oneOf" with
      | .ok xs => branchAll (fun c => reallyIsObject fuel c) s xs
      | .error e => some (.error e)
    else some (.ok false)

/-- Short-circuiting disjunction over predicate outcomes: a definite `true`
or a raised error or exhausted fuel stops the scan; a definite `false`
moves to the next disjunct. -/
def orM : Option (Except SchemaError Bool) → Option (Except SchemaError Bool) →
    Option (Except SchemaError Bool)
  | some (.ok true), _ => some (.ok true)
  | some (.ok false), y => y
  | some (.error e), _ => some (.error e)
  | none, _ => none

/-- One disjunct of the object-like characterization: the node is a `$ref`
node and its resolved target satisfies the recursive predicate. -/
def refClause (recurse : JSONSchema → Option (Except SchemaError Bool))
    (s : JSONSchema) : Option (Except SchemaError Bool) :=
  if s.schema.hasKey "$ref" then
    match s.wrappedRef with
    | .ok t => recurse t
    | .error e => some (.error e)
  else some (.ok false)

/-- One disjunct of the object-like characterization: the node has the given
composition keyword and every branch satisfies the recursive predicate. -/
def compClause (recurse : JSONSchema → Option (Except SchemaError Bool))
    (s : JSONSchema) (k : String) : Option (Except SchemaError Bool) :=
  if s.schema.hasKey k then
    match branchList s k with
    | .ok xs => branchAll recurse s xs
    | .error e => some (.error e)
  else some (.ok false)

/-- The object-like predicate exactly as the claim words it: an unordered
disjunction — the node declares `properties` directly, or is a `$ref`
node with object-like target, or is an `anyOf`/`allOf`/`oneOf` node all
of whose branches are object-like. -/
def objectLikeClaim : Nat → JSONSchema → Option (Except SchemaError Bool)
  | 0, _ => none
  | fuel+1, s =>
    orM (some (.ok (s.schema.hasKey "properties")))
      (orM (refClause (fun t => objectLikeClaim fuel t) s)
        (orM (compClause (fun c => objectLikeClaim fuel c) s "anyOf")
          (orM (compClause (fun c => objectLikeClaim fuel c) s "allOf")
            (compClause (fun c => objectLikeClaim fuel c) s "oneOf"))))

/-- The object-like predicate as the amended claim words it: the same
disjunction read with priority — the first keyword present among
`properties`, `$ref`, `anyOf`, `allOf`, `oneOf` decides, later
disjuncts being disabled once an earlier keyword is present. -/
def objectLikeAmended : Nat → JSONSchema → Option (Except SchemaError Bool)
  | 0, _ => none
  | fuel+1, s =>
    orM (some (.ok (s.schema.hasKey "properties")))
      (orM (refClause (fun t => objectLikeAmended fuel t) s)
        (orM (if s.schema.hasKey "$ref" then some (.ok false)
              else compClause (fun c => objectLikeAmended fuel c) s "anyOf")
          (orM (if s.schema.hasKey "$ref" || s.schema.hasKey "anyOf" then some (.ok false)
                else compClause (fun c => objectLikeAmended fuel c) s "allOf")
            (if s.schema.hasKey "$ref" || s.schema.hasKey "anyOf" || s.schema.hasKey "allOf"
             then some (.ok false)
             else compClause (fun c => objectLikeAmended fuel c) s "oneOf"))))

/-- The category rules of the classifier, one constructor per extractor
class named in `JSONSchema.trait_extractors`. -/
inductive ExtractorKind where
  | AnyOfObject | OneOfObject | AllOfObject
  | RefObject | RefTrait
  | Not | AnyOf | AllOf | OneOf
  | Enum | SimpleType | CompoundType
  | Array | Object
deriving DecidableEq, Repr

/-- `JSONSchema.trait_extractors`: the fixed, ordered list of category rules
the classifier tries. -/
def traitExtractors : List ExtractorKind :=
  [.AnyOfObject, .OneOfObject, .AllOfObject,
   .RefObject, .RefTrait,
   .Not, .AnyOf, .AllOf, .OneOf,
   .Enum, .SimpleType, .CompoundType,
   .Array, .Object]

/-- The classifier loop of `JSONSchema.trait_extractor` over an extractor
list: instantiate each rule in order, return the first whose `check()`
answers true, and fail with the no-match `ValueError` carrying the
node's raw keyword set when the loop falls through.  The individual
`check` predicates live in the external `trait_extractors` module, so
the loop is parameterized over them. -/
def firstMatch (check : ExtractorKind → JSONSchema → Bool) (s : JSONSchema) :
    List ExtractorKind → Except SchemaError ExtractorKind
  | [] => .error (.noExtractor s.schema.keys)
  | k :: ks => if check k s then .ok k else firstMatch check s ks

/-- `JSONSchema.trait_extractor`: the classifier loop run over the fixed
rule list. -/
def traitExtractor (check : ExtractorKind → JSONSchema → Bool) (s : JSONSchema) :
    Except SchemaError ExtractorKind :=
  firstMatch check s traitExtractors

/-- Python truthiness of a JSON value, as `self.metadata.get('required',
False)` is used in a boolean position by `JSONSchema.trait_code`. -/
def JSON.truthy : JSON → Bool
  | .null => false
  | .bool b => b
  | .num q => decide (q ≠ 0)
  | .str s => decide (s ≠ "")
  | .arr xs => !xs.isEmpty
  | .obj kvs => !kvs.isEmpty

namespace JSONSchema

/-- Python `name in self.required`, where the `required` attribute defaults
to the empty list: membership of the name among the fragment's `required`
entries (a non-list `required` value is not modelled and yields false). -/
def requiredContains (s : JSONSchema) (nm : String) : Bool :=
  match (s.schema.get "required").getD (.arr []) with
  | .arr xs => xs.any (fun x => x.isStr nm)
  | _ => false

/-- `JSONSchema.wrapped_properties`: each raw property name paired with the
`make_child` call wrapping its fragment with metadata
`required: name in self.required`.  The regularized dictionary key
(external `utils.regularize_name`) is not modelled; entries keep the raw
name.  A non-mapping `properties` value is not modelled and yields no
entries. -/
def wrappedProperties (s : JSONSchema) :
    List (String × Except SchemaError JSONSchema) :=
  match (s.schema.get "properties").getD (.obj []) with
  | .obj kvs => kvs.map (fun p =>
      (p.1, s.makeChild p.2 none
        (some (.obj [("required", .bool (s.requiredContains p.1))]))))
  | _ => []

/-- The `allow_undefined` value `JSONSchema.trait_code` gives the matched
extractor's descriptor: forced to `false` exactly when the node's
metadata carries a truthy `required` entry; otherwise no keyword is
passed and the descriptor keeps its default of `true`. -/
def traitCodeAllowUndefined (s : JSONSchema) : Bool :=
  !((s.metadata.get "required").getD (.bool false)).truthy

end JSONSchema

/-- Modelled from the spec: the numeric constraint keywords a
`jstraitlets` number/integer descriptor carries (`jstraitlets.py` is
absent from the source tree; only its tests are present). -/
structure NumConstraints where
  minimum : Option Rat
  maximum : Option Rat
  exclusiveMinimum : Bool
  exclusiveMaximum : Bool
  multipleOf : Option Rat
deriving DecidableEq, Repr

/-- A number descriptor with no constraint keywords set. -/
def noNumConstraints : NumConstraints := ⟨none, none, false, false, none⟩

/-- Modelled from the spec: the numeric keyword checks — `minimum`/`maximum`
inclusive unless the corresponding exclusive flag is set, and
`multipleOf` demanding an integral quotient. -/
def checkNum (c : NumConstraints) (q : Rat) : Bool :=
  (match c.minimum with
   | some m => if c.exclusiveMinimum then decide (m < q) else decide (m ≤ q)
   | none => true) &&
  (match c.maximum with
   | some m => if c.exclusiveMaximum then decide (q < m) else decide (q ≤ m)
   | none => true) &&
  (match c.multipleOf with
   | some m => decide ((q / m).den = 1)
   | none => true)

/-- Modelled from the spec: the validator descriptor family of
`jstraitlets.py` (absent from the source tree; only its tests are
present), each variant carrying its `allow_undefined` flag.  The
`InstanceOf` and `Union` kinds, whose semantics refer to native Python
types, are not modelled. -/
inductive Descriptor where
  | JSONNull (allowUndefined : Bool)
  | JSONBoolean (allowUndefined : Bool)
  | JSONNumber (c : NumConstraints) (allowUndefined : Bool)
  | JSONInteger (c : NumConstraints) (allowUndefined : Bool)
  | JSONString (allowUndefined : Bool)
  | JSONArray (item : Descriptor) (minItems : Option Nat) (maxItems : Option Nat)
      (allowUndefined : Bool)
  | JSONEnum (allowed : List JSON) (allowUndefined : Bool)
  | JSONAnyOf (branches : List Descriptor) (allowUndefined : Bool)
  | JSONOneOf (branches : List Descriptor) (allowUndefined : Bool)
  | JSONAllOf (branches : List Descriptor) (allowUndefined : Bool)
  | JSONNot (d : Descriptor) (allowUndefined : Bool)
deriving Repr

/-- The default of the `allow_undefined` flag every descriptor carries. -/
def defaultAllowUndefined : Bool := true

/-- The `allow_undefined` flag carried by a descriptor. -/
def allowUndefinedOf : Descriptor → Bool
  | .JSONNull au => au
  | .JSONBoolean au => au
  | .JSONNumber _ au => au
  | .JSONInteger _ au => au
  | .JSONString au => au
  | .JSONArray _ _ _ au => au
  | .JSONEnum _ au => au
  | .JSONAnyOf _ au => au
  | .JSONOneOf _ au => au
  | .JSONAllOf _ au => au
  | .JSONNot _ au => au

/-- Modelled from the spec: member equality for enum values, distinguishing
`true`/`false`/`0`/`1`/`null` from each other.  Composite (list/mapping)
enum members are not modelled and compare unequal. -/
def JSON.scalarEq : JSON → JSON → Bool
  | .null, .null => true
  | .bool a, .bool b => a == b
  | .num a, .num b => a == b
  | .str a, .str b => a == b
  | _, _ => false

/-- Modelled from the spec: a value submitted to a descriptor's `validate` —
either the `undefined` sentinel (property absent, distinct from JSON
`null`) or a JSON value. -/
inductive JValue where
  | undefined : JValue
  | json (j : JSON) : JValue
deriving Repr

mutual

/-- Modelled from the spec: each descriptor's validation of a present
(non-`undefined`) JSON value — type checks for the primitive kinds
(`Integer` additionally rejecting non-integral numerics), numeric
keyword checks, item/length checks for arrays, member equality for
enums, and the logical composition kinds (`AnyOf` at least one branch,
`OneOf` exactly one branch, `AllOf` every branch, `Not` the wrapped
descriptor failing). -/
def validateJSON : Descriptor → JSON → Bool
  | .JSONNull _, .null => true
  | .JSONNull _, _ => false
  | .JSONBoolean _, .bool _ => true
  | .JSONBoolean _, _ => false
  | .JSONNumber c _, .num q => checkNum c q
  | .JSONNumber _ _, _ => false
  | .JSONInteger c _, .num q => decide (q.den = 1) && checkNum c q
  | .JSONInteger _ _, _ => false
  | .JSONString _, .str _ => true
  | .JSONString _, _ => false
  | .JSONArray item lo hi _, .arr xs =>
    (match lo with | some n => decide (n ≤ xs.length) | none => true) &&
    (match hi with | some n => decide (xs.length ≤ n) | none => true) &&
    allElems item xs
  | .JSONArray _ _ _ _, _ => false
  | .JSONEnum allowed _, j => allowed.any (fun a => JSON.scalarEq a j)
  | .JSONAnyOf bs _, j => decide (1 ≤ countValid bs j)
  | .JSONOneOf bs _, j => decide (countValid bs j = 1)
  | .JSONAllOf bs _, j => decide (countValid bs j = bs.length)
  | .JSONNot d _, j => !validateJSON d j

/-- Every element of an array validates against the item descriptor. -/
def allElems (item : Descriptor) : List JSON → Bool
  | [] => true
  | x :: xs => validateJSON item x && allElems item xs

/-- How many branch descriptors fully validate the value. -/
def countValid : List Descriptor → JSON → Nat
  | [], _ => 0
  | d :: ds, j => (if validateJSON d j then 1 else 0) + countValid ds j

end

/-- Modelled from the spec: a descriptor's `validate(value)` — the
`undefined` sentinel passes exactly when the descriptor's
`allow_undefined` flag is set, regardless of all other constraints; a
present JSON value is checked by the descriptor's own rule. -/
def validate (d : Descriptor) (v : JValue) : Bool :=
  match v with
  | .undefined => allowUndefinedOf d
  | .json j => validateJSON d j

/-
Concrete schema fragments and nodes used to instantiate the claims.
-/

/-- A root node wrapping the empty fragment. -/
def emptyNode : JSONSchema := .mk (.obj []) none none none none (.obj [])

/-- A fragment declaring `properties` together with a non-`"object"` type. -/
def traitObjNode : JSONSchema :=
  .mk (.obj [("type", .str "string"), ("properties", .obj [])])
    none none none none (.obj [])

/-- The self-referencing fragment `{"$ref": "#/definitions/A"}`. -/
def cycRefFrag : JSON := .obj [("$ref", .str "#/definitions/A")]

/-- The cyclic definition `A`: an `allOf` whose single branch refers back to
`#/definitions/A`. -/
def cycFragA : JSON := .obj [("allOf", .arr [cycRefFrag])]

/-- A root schema whose definition `A` refers back to itself through an
`allOf`. -/
def cycRoot : JSON := .obj [("definitions", .obj [("A", cycFragA)])]

/-- The root node of the cyclic schema. -/
def cycRootNode : JSONSchema := .mk cycRoot none none none none (.obj [])

/-- A node wrapping the cyclic definition fragment `A`, with arbitrary
parent and name (the recursion re-wraps `A` under ever-deeper parents). -/
def cycANode (p : Option JSONSchema) (nm : Option String) : JSONSchema :=
  .mk cycFragA none (some cycRootNode) p nm (.obj [])

/-- A node wrapping the `$ref` branch fragment of the cyclic definition. -/
def cycRefNode (p : Option JSONSchema) (nm : Option String) : JSONSchema :=
  .mk cycRefFrag none (some cycRootNode) p nm (.obj [])

/-- The `OneOf` validator over `[Integer, Number]` branches from the test
suite, all flags at their defaults. -/
def oneOfIntNum : Descriptor :=
  .JSONOneOf [.JSONInteger noNumConstraints defaultAllowUndefined,
              .JSONNumber noNumConstraints defaultAllowUndefined]
    defaultAllowUndefined

/-- A root whose fragment binds the empty-string key, so that `#/` can be
compared against a walk of the empty segment. -/
def c5Root : JSONSchema :=
  .mk (.obj [("", .obj [("x", .null)])]) none none none none (.obj [])

/-- A root with one object-like definition `Foo`, for exercising successful
reference resolution. -/
def c5DefRoot : JSONSchema :=
  .mk (.obj [("definitions", .obj [("Foo", .obj [("properties", .obj [])])])])
    none none none none (.obj [])

/-- A root whose definition `A` is a bare string rather than a mapping. -/
def c6Root : JSONSchema :=
  .mk (.obj [("definitions", .obj [("A", .str "notadict")])])
    none none none none (.obj [])

/-- The root context of the mixed-keyword node: definition `B` is the empty
(non-object-like) fragment. -/
def mixRootNode : JSONSchema :=
  .mk (.obj [("definitions", .obj [("B", .obj [])])]) none none none none (.obj [])

/-- A fragment carrying both a `$ref` to the non-object-like `B` and an
`anyOf` whose single branch declares `properties`. -/
def mixFrag : JSON :=
  .obj [("$ref", .str "#/definitions/B"),
        ("anyOf", .arr [.obj [("properties", .obj [])]])]

/-- The mixed-keyword node wrapped in its context. -/
def mixNode : JSONSchema :=
  .mk mixFrag none (some mixRootNode) (some mixRootNode) none (.obj [])

/-- An `anyOf` node with one object-like branch and one non-object-like
branch. -/
def anyMixNode : JSONSchema :=
  .mk (.obj [("anyOf", .arr [.obj [("properties", .obj [])],
                             .obj [("type", .str "string")]])])
    none none none none (.obj [])

/-- An object schema with two properties of which only `b` is required. -/
def reqObjNode : JSONSchema :=
  .mk (.obj [("properties", .obj [("a", .obj []), ("b", .obj [])]),
             ("required", .arr [.str "b"])])
    none none none none (.obj [])

/-- The wrapped child of the optional property `a` of `reqObjNode`. -/
def childA : JSONSchema :=
  .mk (.obj []) none (some reqObjNode) (some reqObjNode) none
    (.obj [("required", .bool false)])

/-- The wrapped child of the required property `b` of `reqObjNode`. -/
def childB : JSONSchema :=
  .mk (.obj []) none (some reqObjNode) (some reqObjNode) none
    (.obj [("required", .bool true)])

/-
Helper lemmas.
-/

/-- A fragment without a keyword looks it up as `none`. -/
lemma hasKey_false_get_none {j : JSON} {k : String} (h : j.hasKey k = false) :
    j.get k = none := by
  unfold JSON.hasKey at h
  cases hg : j.get k with
  | none => rfl
  | some v => rw [hg] at h; simp at h

/-- A key appearing among a key/value list's keys has a lookup result. -/
lemma lookup_of_mem_keys {k : String} {kvs : List (String × JSON)}
    (h : k ∈ kvs.map Prod.fst) : ∃ d, JSON.lookup k kvs = some d := by
  induction kvs with
  | nil => simp at h
  | cons p kvs ih =>
    by_cases hk : p.1 = k
    · exact ⟨p.2, by simp [JSON.lookup, hk]⟩
    · simp only [List.map_cons, List.mem_cons] at h
      rcases h with h | h
      · exact absurd h.symm hk
      · obtain ⟨d, hd⟩ := ih h
        exact ⟨d, by simp [JSON.lookup, hk, hd]⟩

/-- A node the constructor accepts wraps a mapping. -/
lemma init_ok_isObj {frag : JSON} {m : Option String} {c p : Option JSONSchema}
    {nm : Option String} {md : Option JSON} {n : JSONSchema}
    (h : JSONSchema.init frag m c p nm md = .ok n) : n.schema.isObj = true := by
  unfold JSONSchema.init at h
  by_cases hi : frag.isObj
  · rw [if_pos hi] at h
    obtain rfl : JSONSchema.mk frag m c p nm (md.getD (.obj [])) = n := by
      simpa using h
    simpa [JSONSchema.schema] using hi
  · rw [if_neg hi] at h
    exact absurd h (by simp)

/-- A child node `make_child` accepts wraps a mapping. -/
lemma makeChild_ok_isObj {s : JSONSchema} {frag : JSON} {nm : Option String}
    {md : Option JSON} {n : JSONSchema}
    (h : s.makeChild frag nm md = .ok n) : n.schema.isObj = true :=
  init_ok_isObj h

/-- A successful reference resolution returns either the context node or a
freshly constructed child. -/
lemma getReference_ok_cases {s : JSONSchema} {ref : String} {n : JSONSchema}
    (h : s.getReference ref = .ok n) :
    n = s.contextNode ∨ n.schema.isObj = true := by
  unfold JSONSchema.getReference at h
  dsimp only at h
  split at h
  · exact absurd h (by simp)
  · split at h
    · exact absurd h (by simp)
    · split at h
      · left; exact (Except.ok.inj h).symm
      · split at h
        · right; exact makeChild_ok_isObj h
        · exact absurd h (by simp)
        · exact absurd h (by simp)

/-- The classifier loop returns `k` exactly when `k` appears in the rule
list after a (possibly empty) prefix of rules whose checks all fail and
`k`'s own check passes. -/
lemma firstMatch_ok_iff (check : ExtractorKind → JSONSchema → Bool) (s : JSONSchema) :
    ∀ (l : List ExtractorKind) (k : ExtractorKind),
      firstMatch check s l = .ok k ↔
        ∃ l₁ l₂, l = l₁ ++ k :: l₂ ∧ check k s = true ∧ ∀ j ∈ l₁, check j s = false := by
  intro l
  induction l with
  | nil =>
    intro k
    constructor
    · intro h; exact absurd h (by simp [firstMatch])
    · rintro ⟨l₁, l₂, h, -, -⟩; exact absurd h (by simp)
  | cons a l ih =>
    intro k
    constructor
    · intro h
      by_cases ha : check a s = true
      · simp only [firstMatch, ha, if_true, Except.ok.injEq] at h
        subst h
        exact ⟨[], l, rfl, ha, by simp⟩
      · simp only [firstMatch] at h
        rw [if_neg (by simp [Bool.eq_false_iff.mpr ha])] at h
        obtain ⟨l₁, l₂, hdec, hk, hall⟩ := (ih k).mp h
        refine ⟨a :: l₁, l₂, by simp [hdec], hk, ?_⟩
        intro j hj
        rcases List.mem_cons.mp hj with rfl | hj
        · simpa using ha
        · exact hall j hj
    · rintro ⟨l₁, l₂, hdec, hk, hall⟩
      cases l₁ with
      | nil =>
        simp only [List.nil_append, List.cons.injEq] at hdec
        obtain ⟨rfl, rfl⟩ := hdec
        simp [firstMatch, hk]
      | cons b l₁ =>
        have hab : a = b ∧ l = l₁ ++ k :: l₂ := by simpa using hdec
        obtain ⟨rfl, hl⟩ := hab
        have hb : check a s = false := hall a (by simp)
        simp only [firstMatch]
        rw [if_neg (by simp [hb])]
        exact (ih k).mpr ⟨l₁, l₂, hl, hk, fun j hj => hall j (by simp [hj])⟩

/-- When every rule's check fails, the classifier loop raises the no-match
error carrying the node's raw keyword set. -/
lemma firstMatch_none (check : ExtractorKind → JSONSchema → Bool) (s : JSONSchema) :
    ∀ l : List ExtractorKind, (∀ k ∈ l, check k s = false) →
      firstMatch check s l = .error (.noExtractor s.schema.keys) := by
  intro l
  induction l with
  | nil => intro _; rfl
  | cons a l ih =>
    intro h
    have ha : check a s = false := h a (by simp)
    simp only [firstMatch]
    rw [if_neg (by simp [ha])]
    exact ih fun k hk => h k (by simp [hk])

/-- A definitely-true first disjunct settles the disjunction. -/
lemma orM_true (y : Option (Except SchemaError Bool)) :
    orM (some (.ok true)) y = some (.ok true) := rfl

/-- A definitely-false first disjunct defers to the second. -/
lemma orM_false (y : Option (Except SchemaError Bool)) :
    orM (some (.ok false)) y = y := rfl

/-- A definitely-false second disjunct leaves the first unchanged. -/
lemma orM_false_right (x : Option (Except SchemaError Bool)) :
    orM x (some (.ok false)) = x := by
  cases x with
  | none => rfl
  | some v =>
    cases v with
    | error e => rfl
    | ok b => cases b <;> rfl

/-- The branch loop is determined by the pointwise behavior of the
recursive predicate it is given. -/
lemma branchAll_congr (f g : JSONSchema → Option (Except SchemaError Bool))
    (hfg : ∀ c, f c = g c) (s : JSONSchema) :
    ∀ xs : List JSON, branchAll f s xs = branchAll g s xs := by
  intro xs
  induction xs with
  | nil => rfl
  | cons x xs ih =>
    simp only [branchAll]
    cases hmc : s.makeChild x none none with
    | error e => rfl
    | ok c =>
      dsimp only
      rw [hfg c]
      cases hgc : g c with
      | none => rfl
      | some v =>
        cases v with
        | error e => rfl
        | ok b =>
          cases b
          · rfl
          · exact ih

/-- One step of `really_is_trait` on the `$ref` branch node of the cyclic
schema: the reference resolves back to the `A` fragment. -/
lemma cycRef_stepT (n : Nat) (p : Option JSONSchema) (nm : Option String) :
    reallyIsTrait (n + 1) (cycRefNode p nm) =
      reallyIsTrait n (cycANode (some (cycRefNode p nm)) (some "A")) := rfl

/-- One step of `really_is_trait` on the cyclic `A` node: the single `allOf`
branch is wrapped and recursed into. -/
lemma cycA_stepT (n : Nat) (p : Option JSONSchema) (nm : Option String) :
    reallyIsTrait (n + 1) (cycANode p nm) =
      (match reallyIsTrait n (cycRefNode (some (cycANode p nm)) none) with
       | none => none
       | some (.error e) => some (.error e)
       | some (.ok false) => some (.ok false)
       | some (.ok true) =>
           branchAll (fun c => reallyIsTrait n c) (cycANode p nm) []) := rfl

/-- One step of `really_is_object` on the `$ref` branch node of the cyclic
schema. -/
lemma cycRef_stepO (n : Nat) (p : Option JSONSchema) (nm : Option String) :
    reallyIsObject (n + 1) (cycRefNode p nm) =
      reallyIsObject n (cycANode (some (cycRefNode p nm)) (some "A")) := rfl

/-- One step of `really_is_object` on the cyclic `A` node. -/
lemma cycA_stepO (n : Nat) (p : Option JSONSchema) (nm : Option String) :
    reallyIsObject (n + 1) (cycANode p nm) =
      (match reallyIsObject n (cycRefNode (some (cycANode p nm)) none) with
       | none => none
       | some (.error e) => some (.error e)
       | some (.ok false) => some (.ok false)
       | some (.ok true) =>
           branchAll (fun c => reallyIsObject n c) (cycANode p nm) []) := rfl

/-- On the cyclic schema, `really_is_trait` exhausts every fuel bound,
whatever parent and name the node carries. -/
lemma cycDivergesTrait : ∀ n : Nat,
    (∀ (p : Option JSONSchema) (nm : Option String),
      reallyIsTrait n (cycANode p nm) = none) ∧
    (∀ (p : Option JSONSchema) (nm : Option String),
      reallyIsTrait n (cycRefNode p nm) = none) := by
  intro n
  induction n with
  | zero => exact ⟨fun _ _ => rfl, fun _ _ => rfl⟩
  | succ n ih =>
    constructor
    · intro p nm
      rw [cycA_stepT, ih.2]
    · intro p nm
      rw [cycRef_stepT, ih.1]

/-- On the cyclic schema, `really_is_object` exhausts every fuel bound,
whatever parent and name the node carries. -/
lemma cycDivergesObject : ∀ n : Nat,
    (∀ (p : Option JSONSchema) (nm : Option String),
      reallyIsObject n (cycANode p nm) = none) ∧
    (∀ (p : Option JSONSchema) (nm : Option String),
      reallyIsObject n (cycRefNode p nm) = none) := by
  intro n
  induction n with
  | zero => exact ⟨fun _ _ => rfl, fun _ _ => rfl⟩
  | succ n ih =>
    constructor
    · intro p nm
      rw [cycA_stepO, ih.2]
    · intro p nm
      rw [cycRef_stepO, ih.1]

/-- `get_reference` on a non-empty, `#`-rooted reference with a real second
segment is the walk of the context fragment followed by `make_child`. -/
lemma getReference_walk (n : JSONSchema) (ref : String)
    (h0 : ref ≠ "") (h1 : (refSplit ref).headD "" = "#")
    (h2 : (refSplit ref).length ≠ 1) (h3 : (refSplit ref)[1]? ≠ some "") :
    n.getReference ref =
      (match walkPath n.contextNode.schema (refSplit ref).tail with
       | .ok frag => n.makeChild frag (some ((refSplit ref).getLastD "")) none
       | .error .keyError => .error (.unresolvedRef ref)
       | .error e => .error e) := by
  unfold JSONSchema.getReference
  rw [if_neg h0]
  dsimp only
  rw [if_neg (not_not_intro h1), if_neg (by simp [h2, h3])]

/-- `get_reference` on a `#`-rooted reference that is a single segment or
has an empty second segment returns the context node. -/
lemma getReference_top (n : JSONSchema) (ref : String)
    (h0 : ref ≠ "") (h1 : (refSplit ref).headD "" = "#")
    (h2 : (refSplit ref).length = 1 ∨ (refSplit ref)[1]? = some "") :
    n.getReference ref = .ok n.contextNode := by
  unfold JSONSchema.getReference
  rw [if_neg h0]
  dsimp only
  rw [if_neg (not_not_intro h1), if_pos h2]

/-- `get_reference` on a reference whose first segment is not `#` raises the
format error. -/
lemma getReference_badformat (n : JSONSchema) (ref : String)
    (h0 : ref ≠ "") (h1 : (refSplit ref).headD "" ≠ "#") :
    n.getReference ref = .error (.invalidRefFormat ref) := by
  unfold JSONSchema.getReference
  rw [if_neg h0]
  dsimp only
  rw [if_pos h1]

/-
Claim theorems.
-/

/-- C1, counterexample: the claim asserts that value `3` passes the `OneOf`
validator over branches `[Integer, Number]`, but both branches validate
`3` (two passing branches), so exactly-one semantics rejects it — in
agreement with the test suite, which lists `3` as a failing case. -/
theorem one_of_value_three_fails :
    validate oneOfIntNum (.json (.num 3)) = false ∧
    countValid [Descriptor.JSONInteger noNumConstraints defaultAllowUndefined,
                Descriptor.JSONNumber noNumConstraints defaultAllowUndefined] (.num 3) = 2 := by
  constructor
  · simp [validate, oneOfIntNum, validateJSON, countValid, checkNum, noNumConstraints]
  · simp [countValid, validateJSON, checkNum, noNumConstraints]

/-- C1, amended: the `OneOf` composite validator passes a present value iff
exactly one branch fully validates it; for branches `[Integer, Number]`
the value `3` fails (both branches pass), `3.14` passes (only the
`Number` branch), and `null` fails (no branch). -/
theorem one_of_requires_exactly_one_branch :
    (∀ (bs : List Descriptor) (au : Bool) (j : JSON),
      validate (.JSONOneOf bs au) (.json j) = true ↔ countValid bs j = 1)
  ∧ validate oneOfIntNum (.json (.num 3)) = false
  ∧ validate oneOfIntNum (.json (.num (mkRat 157 50))) = true
  ∧ validate oneOfIntNum (.json .null) = false := by
  refine ⟨?_, ?_, ?_, ?_⟩
  · intro bs au j
    simp [validate, validateJSON]
  · simp [validate, oneOfIntNum, validateJSON, countValid, checkNum, noNumConstraints]
  · simp [validate, oneOfIntNum, validateJSON, countValid, checkNum, noNumConstraints]
    decide
  · simp [validate, oneOfIntNum, validateJSON, countValid]

/-- C2: on the schema whose definition `A` refers back to itself through an
`allOf`, inspecting the node for `A` never returns: for every fuel bound
both recursive predicates exhaust the fuel, producing neither a value
nor any reported error — the source has no `CyclicReferenceError` and no
in-progress set, so the recursion is unbounded. -/
theorem cyclic_reference_recursion_never_returns : ∀ n : Nat,
    reallyIsTrait n (cycANode (some cycRootNode) (some "A")) = none ∧
    reallyIsObject n (cycANode (some cycRootNode) (some "A")) = none :=
  fun n => ⟨(cycDivergesTrait n).1 _ _, (cycDivergesObject n).1 _ _⟩

/-- C3: classification tries the category rules in the fixed order
`AnyOfObject, OneOfObject, AllOfObject, RefObject, RefTrait, Not, AnyOf,
AllOf, OneOf, Enum, SimpleType, CompoundType, Array, Object`, returns
the first rule whose check matches (for any check predicates), and when
no rule matches fails with the no-match error carrying the node's raw
keyword set. -/
theorem classifier_first_match_fixed_order
    (check : ExtractorKind → JSONSchema → Bool) (s : JSONSchema) :
    traitExtractors =
      [.AnyOfObject, .OneOfObject, .AllOfObject, .RefObject, .RefTrait,
       .Not, .AnyOf, .AllOf, .OneOf, .Enum, .SimpleType, .CompoundType,
       .Array, .Object]
  ∧ (∀ k, traitExtractor check s = .ok k ↔
      ∃ l₁ l₂, traitExtractors = l₁ ++ k :: l₂ ∧ check k s = true ∧
        ∀ j ∈ l₁, check j s = false)
  ∧ ((∀ k ∈ traitExtractors, check k s = false) →
      traitExtractor check s = .error (.noExtractor s.schema.keys)) :=
  ⟨rfl,
   fun k => firstMatch_ok_iff check s traitExtractors k,
   fun h => firstMatch_none check s traitExtractors h⟩

/-- C3, witness: a check that always fails makes classification of the
one-keyword node fail with its keyword set, and a check matching only
the `Enum` rule selects it. -/
theorem classifier_first_match_fixed_order_witness :
    traitExtractor (fun _ _ => false) emptyNode = .error (.noExtractor []) ∧
    traitExtractor (fun k _ => k = ExtractorKind.Enum) emptyNode = .ok .Enum := by
  constructor
  · exact (classifier_first_match_fixed_order (fun _ _ => false) emptyNode).2.2
      (fun k _ => rfl)
  · exact ((classifier_first_match_fixed_order
        (fun k _ => k = ExtractorKind.Enum) emptyNode).2.1 .Enum).mpr
      ⟨[.AnyOfObject, .OneOfObject, .AllOfObject, .RefObject, .RefTrait,
        .Not, .AnyOf, .AllOf, .OneOf],
       [.SimpleType, .CompoundType, .Array, .Object],
       rfl, by simp, by decide⟩

/-- C4, counterexample: on the node carrying both a `$ref` to a
non-object-like target and an `anyOf` whose single branch is
object-like, the claim's unordered disjunction answers true while the
source predicate answers false — `really_is_object` commits to the
`$ref` branch and never consults the `anyOf`. -/
theorem object_like_unordered_disjunction_fails :
    objectLikeClaim 9 mixNode = some (.ok true) ∧
    reallyIsObject 9 mixNode = some (.ok false) ∧
    mixNode.schema.hasKey "properties" = false := ⟨rfl, rfl, rfl⟩

/-- C4, amended: the recursive object-like predicate is the claimed
disjunction read with priority — the first keyword present among
`properties`, `$ref`, `anyOf`, `allOf`, `oneOf` decides, branches being
conjoined (all must be object-like); in particular an `anyOf` with one
object-like branch and one non-object-like branch is not object-like. -/
theorem object_like_priority_characterization :
    (∀ (fuel : Nat) (s : JSONSchema),
      reallyIsObject fuel s = objectLikeAmended fuel s)
  ∧ reallyIsObject 9 anyMixNode = some (.ok false) := by
  refine ⟨?_, rfl⟩
  intro fuel
  induction fuel with
  | zero => intro s; rfl
  | succ n ih =>
    intro s
    simp only [reallyIsObject, objectLikeAmended]
    cases hP : s.schema.hasKey "properties" with
    | true => simp only [hP, if_true, orM_true]
    | false =>
      simp only [hP, Bool.false_eq_true, if_false, orM_false]
      cases hR : s.schema.hasKey "$ref" with
      | true =>
        simp only [hR, if_true, Bool.true_or, orM_false, orM_false_right]
        simp only [refClause, hR, if_true]
        cases hw : s.wrappedRef with
        | ok t => exact ih t
        | error e => rfl
      | false =>
        simp only [refClause, hR, Bool.false_eq_true, if_false, Bool.false_or, orM_false]
        cases hA : s.schema.hasKey "anyOf" with
        | true =>
          simp only [hA, if_true, Bool.true_or, orM_false, orM_false_right]
          simp only [compClause, hA, if_true]
          cases hb : branchList s "anyOf" with
          | ok xs => exact branchAll_congr _ _ (fun c => ih c) s xs
          | error e => rfl
        | false =>
          simp only [compClause, hA, Bool.false_eq_true, if_false, Bool.false_or, orM_false]
          cases hL : s.schema.hasKey "allOf" with
          | true =>
            simp only [hL, if_true, Bool.true_or, orM_false, orM_false_right]
            cases hb : branchList s "allOf" with
            | ok xs => exact branchAll_congr _ _ (fun c => ih c) s xs
            | error e => rfl
          | false =>
            simp only [hL, Bool.false_eq_true, if_false, Bool.false_or, orM_false]
            cases hO : s.schema.hasKey "oneOf" with
            | true =>
              simp only [hO, if_true]
              cases hb : branchList s "oneOf" with
              | ok xs => exact branchAll_congr _ _ (fun c => ih c) s xs
              | error e => rfl
            | false =>
              simp only [hO, Bool.false_eq_true, if_false]

/-- C5, counterexample: the reference `#/` is accepted by the resolver but,
contrary to the claim's walking branch, returns the context root node
itself — not a child wrapping the fragment reached by walking the empty
final segment (the root's name stays `none`, not the final segment). -/
theorem get_reference_empty_second_segment_returns_root :
    c5Root.getReference "#/" = .ok c5Root ∧
    refSplit "#/" = ["#", ""] ∧
    walkPath (JSONSchema.schema c5Root) [""] = .ok (.obj [("x", .null)]) ∧
    JSONSchema.name c5Root = none ∧
    ("#/" : String) ≠ "#" := ⟨rfl, rfl, rfl, rfl, by decide⟩

/-- C5, amended: `#` alone — or any reference whose second slash-separated
segment is empty, such as `#/` — resolves to the invoking node's context
root itself; every other accepted local reference walks the context
root's raw fragment through the path segments and wraps the reached
mapping as a child whose name is the final segment and whose module and
context come from the invoking node, with that node as parent. -/
theorem get_reference_resolution (n : JSONSchema) (ref : String) :
    (n.getReference "#" = .ok n.contextNode)
  ∧ (ref ≠ "" → (refSplit ref).headD "" = "#" →
      ((refSplit ref).length = 1 ∨ (refSplit ref)[1]? = some "") →
      n.getReference ref = .ok n.contextNode)
  ∧ (∀ frag : JSON, ref ≠ "" → (refSplit ref).headD "" = "#" →
      (refSplit ref).length ≠ 1 → (refSplit ref)[1]? ≠ some "" →
      walkPath n.contextNode.schema (refSplit ref).tail = .ok frag →
      frag.isObj = true →
      n.getReference ref =
        .ok (.mk frag n.module (some n.contextNode) (some n)
              (some ((refSplit ref).getLastD "")) (.obj []))) := by
  refine ⟨rfl, ?_, ?_⟩
  · intro h0 h1 h2
    exact getReference_top n ref h0 h1 h2
  · intro frag h0 h1 h2 h3 hw hobj
    rw [getReference_walk n ref h0 h1 h2 h3, hw]
    simp only [JSONSchema.makeChild, JSONSchema.init, hobj, if_true, Option.getD]

/-- C5, witness: in a root with definition `Foo`, the reference
`#/definitions/Foo` resolves to a child wrapping the definition
fragment named `Foo`, and `#` resolves to the root itself. -/
theorem get_reference_resolution_witness :
    c5DefRoot.getReference "#/definitions/Foo" =
      .ok (.mk (.obj [("properties", .obj [])]) none (some c5DefRoot)
            (some c5DefRoot) (some "Foo") (.obj [])) ∧
    c5DefRoot.getReference "#" = .ok c5DefRoot := by
  constructor
  · exact (get_reference_resolution c5DefRoot "#/definitions/Foo").2.2
      (.obj [("properties", .obj [])]) (by decide) rfl (by decide) (by decide) rfl rfl
  · exact (get_reference_resolution c5DefRoot "#").1

/-- C6, counterexample: the reference `#/definitions/A` in a root whose
definition `A` is the bare string `"notadict"` walks successfully (no
missing segment), yet resolution fails — with the node constructor's
mapping-check error, not one of the claim's enumerated failures — so
"every other local reference resolves without error" is false. -/
theorem get_reference_nondict_fragment_errors :
    c6Root.getReference "#/definitions/A" = .error .notADict ∧
    walkPath (JSONSchema.schema c6Root) ["definitions", "A"] =
      .ok (.str "notadict") := ⟨rfl, rfl⟩

/-- C6, amended: resolution fails exactly as follows — an empty reference
fails; a first segment other than `#` fails with the format error; a
walk meeting a missing segment in a mapping fails with the unresolved
error; a walk indexing through a non-mapping fails with the type error;
a walked-to fragment that is not a mapping fails the constructor's
mapping check; every other local reference resolves without error. -/
theorem get_reference_error_cases (n : JSONSchema) (ref : String) :
    (ref = "" → n.getReference ref = .error .emptyReference)
  ∧ (ref ≠ "" → (refSplit ref).headD "" ≠ "#" →
      n.getReference ref = .error (.invalidRefFormat ref))
  ∧ (ref ≠ "" → (refSplit ref).headD "" = "#" →
      (refSplit ref).length ≠ 1 → (refSplit ref)[1]? ≠ some "" →
      walkPath n.contextNode.schema (refSplit ref).tail = .error .keyError →
      n.getReference ref = .error (.unresolvedRef ref))
  ∧ (ref ≠ "" → (refSplit ref).headD "" = "#" →
      (refSplit ref).length ≠ 1 → (refSplit ref)[1]? ≠ some "" →
      walkPath n.contextNode.schema (refSplit ref).tail = .error .typeError →
      n.getReference ref = .error .typeError)
  ∧ (∀ frag : JSON, ref ≠ "" → (refSplit ref).headD "" = "#" →
      (refSplit ref).length ≠ 1 → (refSplit ref)[1]? ≠ some "" →
      walkPath n.contextNode.schema (refSplit ref).tail = .ok frag →
      frag.isObj = false →
      n.getReference ref = .error .notADict)
  ∧ (∀ frag : JSON, ref ≠ "" → (refSplit ref).headD "" = "#" →
      (refSplit ref).length ≠ 1 → (refSplit ref)[1]? ≠ some "" →
      walkPath n.contextNode.schema (refSplit ref).tail = .ok frag →
      frag.isObj = true →
      ∃ m, n.getReference ref = .ok m)
  ∧ (ref ≠ "" → (refSplit ref).headD "" = "#" →
      ((refSplit ref).length = 1 ∨ (refSplit ref)[1]? = some "") →
      ∃ m, n.getReference ref = .ok m) := by
  refine ⟨?_, ?_, ?_, ?_, ?_, ?_, ?_⟩
  · intro h0
    unfold JSONSchema.getReference
    rw [if_pos h0]
  · intro h0 h1
    exact getReference_badformat n ref h0 h1
  · intro h0 h1 h2 h3 hw
    rw [getReference_walk n ref h0 h1 h2 h3, hw]
  · intro h0 h1 h2 h3 hw
    rw [getReference_walk n ref h0 h1 h2 h3, hw]
  · intro frag h0 h1 h2 h3 hw hobj
    rw [getReference_walk n ref h0 h1 h2 h3, hw]
    simp only [JSONSchema.makeChild, JSONSchema.init, hobj, Bool.false_eq_true, if_false]
  · intro frag h0 h1 h2 h3 hw hobj
    rw [getReference_walk n ref h0 h1 h2 h3, hw]
    simp only [JSONSchema.makeChild, JSONSchema.init, hobj, if_true, Option.getD]
    exact ⟨_, rfl⟩
  · intro h0 h1 h2
    exact ⟨n.contextNode, getReference_top n ref h0 h1 h2⟩

/-- C6, witness: each failure class and the success class exhibited on
concrete roots — the empty reference, a non-`#`-rooted reference, a
missing definition, a walk through a non-mapping, a non-mapping
definition fragment, and a resolvable definition. -/
theorem get_reference_error_cases_witness :
    c6Root.getReference "" = .error .emptyReference ∧
    c6Root.getReference "definitions/A" = .error (.invalidRefFormat "definitions/A") ∧
    c6Root.getReference "#/definitions/Z" = .error (.unresolvedRef "#/definitions/Z") ∧
    c6Root.getReference "#/definitions/A/x" = .error .typeError ∧
    c6Root.getReference "#/definitions/A" = .error .notADict ∧
    (∃ m, c5DefRoot.getReference "#/definitions/Foo" = .ok m) := by
  refine ⟨?_, ?_, ?_, ?_, ?_, ?_⟩
  · exact (get_reference_error_cases c6Root "").1 rfl
  · exact (get_reference_error_cases c6Root "definitions/A").2.1 (by decide) (by decide)
  · exact (get_reference_error_cases c6Root "#/definitions/Z").2.2.1
      (by decide) rfl (by decide) (by decide) rfl
  · exact (get_reference_error_cases c6Root "#/definitions/A/x").2.2.2.1
      (by decide) rfl (by decide) (by decide) rfl
  · exact (get_reference_error_cases c6Root "#/definitions/A").2.2.2.2.1
      (.str "notadict") (by decide) rfl (by decide) (by decide) rfl rfl
  · exact (get_reference_error_cases c5DefRoot "#/definitions/Foo").2.2.2.2.2.1
      (.obj [("properties", .obj [])]) (by decide) rfl (by decide) (by decide) rfl rfl

/-- C7: a wrapped property's descriptor gets `allow_undefined = false`
exactly when the property's raw name is in the owning object's
`required` set (the child's metadata records the membership and
`trait_code` negates it); absent `required` metadata leaves the flag at
its default `true`; and for every descriptor the `undefined` sentinel
passes exactly when the flag is set, regardless of other constraints. -/
theorem allow_undefined_forced_by_required :
    (∀ (o : JSONSchema) (nm : String) (r : Except SchemaError JSONSchema) (c : JSONSchema),
        (nm, r) ∈ o.wrappedProperties → r = .ok c →
        c.traitCodeAllowUndefined = !o.requiredContains nm)
  ∧ (∀ s : JSONSchema, s.metadata.get "required" = none →
        s.traitCodeAllowUndefined = true)
  ∧ defaultAllowUndefined = true
  ∧ (∀ d : Descriptor, validate d .undefined = allowUndefinedOf d) := by
  refine ⟨?_, ?_, rfl, fun d => rfl⟩
  · intro o nm r c hmem hok
    unfold JSONSchema.wrappedProperties at hmem
    cases hv : (o.schema.get "properties").getD (.obj []) with
    | obj kvs =>
      rw [hv] at hmem
      obtain ⟨p, hp, heq⟩ := List.mem_map.mp hmem
      cases heq
      unfold JSONSchema.makeChild JSONSchema.init at hok
      by_cases hio : p.2.isObj = true
      · rw [if_pos hio] at hok
        obtain rfl : JSONSchema.mk p.2 o.module (some o.contextNode) (some o) none
            ((some (JSON.obj [("required", .bool (o.requiredContains p.1))])).getD (.obj []))
            = c := by simpa using hok
        rfl
      · rw [if_neg (by simpa using hio)] at hok
        exact absurd hok (by simp)
    | null => rw [hv] at hmem; simp at hmem
    | bool b => rw [hv] at hmem; simp at hmem
    | num q => rw [hv] at hmem; simp at hmem
    | str t => rw [hv] at hmem; simp at hmem
    | arr xs => rw [hv] at hmem; simp at hmem
  · intro s h
    unfold JSONSchema.traitCodeAllowUndefined
    rw [h]
    rfl

/-- C7, witness: in the object with `required: ["b"]`, the wrapped child of
`b` has the flag forced to `false` and the child of `a` keeps `true`;
the `undefined` sentinel fails a `false`-flag descriptor and passes a
`true`-flag one. -/
theorem allow_undefined_forced_by_required_witness :
    JSONSchema.traitCodeAllowUndefined childB = false ∧
    JSONSchema.traitCodeAllowUndefined childA = true ∧
    validate (.JSONString false) .undefined = false ∧
    validate (.JSONString true) .undefined = true := by
  have hlist : reqObjNode.wrappedProperties = [("a", .ok childA), ("b", .ok childB)] := rfl
  refine ⟨?_, ?_, ?_, ?_⟩
  · have h := allow_undefined_forced_by_required.1 reqObjNode "b" (.ok childB) childB
      (by rw [hlist]; exact List.mem_cons_of_mem _ (List.mem_singleton.mpr rfl)) rfl
    rw [h]; rfl
  · have h := allow_undefined_forced_by_required.1 reqObjNode "a" (.ok childA) childA
      (by rw [hlist]; exact List.mem_cons_self _ _) rfl
    rw [h]; rfl
  · exact (allow_undefined_forced_by_required.2.2.2 (.JSONString false)).trans rfl
  · exact (allow_undefined_forced_by_required.2.2.2 (.JSONString true)).trans rfl

/-- C8: a keyword absent from the wrapped fragment is served with its
documented default — `type` as `"object"`, `additionalProperties` as
`true`, `required` as the empty list, `properties` and `definitions` as
empty mappings, `title` and `description` as the empty string, `default`
as `null` — and a keyword present in the fragment is served with the
fragment's own value. -/
theorem getattr_keyword_defaults (s : JSONSchema) :
    (s.schema.hasKey "type" = false → s.getattr "type" = .ok (.str "object"))
  ∧ (s.schema.hasKey "additionalProperties" = false →
      s.getattr "additionalProperties" = .ok (.bool true))
  ∧ (s.schema.hasKey "required" = false → s.getattr "required" = .ok (.arr []))
  ∧ (s.schema.hasKey "properties" = false → s.getattr "properties" = .ok (.obj []))
  ∧ (s.schema.hasKey "definitions" = false → s.getattr "definitions" = .ok (.obj []))
  ∧ (s.schema.hasKey "title" = false → s.getattr "title" = .ok (.str ""))
  ∧ (s.schema.hasKey "description" = false → s.getattr "description" = .ok (.str ""))
  ∧ (s.schema.hasKey "default" = false → s.getattr "default" = .ok .null)
  ∧ (∀ k v, k ∈ JSONSchema.attrDefaults.map Prod.fst → s.schema.get k = some v →
      s.getattr k = .ok v) := by
  refine ⟨?_, ?_, ?_, ?_, ?_, ?_, ?_, ?_, ?_⟩
  all_goals try {
    intro h
    have hn := hasKey_false_get_none h
    simp [JSONSchema.getattr, JSONSchema.attrDefaults, JSON.lookup, hn]
  }
  intro k v hk hv
  obtain ⟨d, hd⟩ := lookup_of_mem_keys hk
  simp [JSONSchema.getattr, hd, hv]

/-- C8, witness: the empty fragment serves the defaults for `type` and
`additionalProperties`, and a fragment carrying `type: "string"` serves
its own value. -/
theorem getattr_keyword_defaults_witness :
    emptyNode.getattr "type" = .ok (.str "object") ∧
    emptyNode.getattr "additionalProperties" = .ok (.bool true) ∧
    traitObjNode.getattr "type" = .ok (.str "string") := by
  refine ⟨?_, ?_, ?_⟩
  · exact (getattr_keyword_defaults emptyNode).1 rfl
  · exact (getattr_keyword_defaults emptyNode).2.1 rfl
  · exact (getattr_keyword_defaults traitObjNode).2.2.2.2.2.2.2.2 "type"
      (.str "string") (by decide) rfl

/-- C9: a non-mapping fragment is rejected by the node constructor with the
"schema should be supplied as a dict" error, so every constructed node
wraps a mapping — an invariant preserved by `copy`, `make_child`, and
reference resolution (the latter assuming the context node satisfies
it). -/
theorem nodes_always_wrap_mappings :
    (∀ (frag : JSON) (m : Option String) (c p : Option JSONSchema)
        (nm : Option String) (md : Option JSON), frag.isObj = false →
        JSONSchema.init frag m c p nm md = .error .notADict)
  ∧ (∀ (frag : JSON) (m : Option String) (c p : Option JSONSchema)
        (nm : Option String) (md : Option JSON) (n : JSONSchema),
        JSONSchema.init frag m c p nm md = .ok n → n.schema.isObj = true)
  ∧ (∀ (s : JSONSchema) (frag : JSON) (nm : Option String) (md : Option JSON)
        (n : JSONSchema), s.makeChild frag nm md = .ok n → n.schema.isObj = true)
  ∧ (∀ (s : JSONSchema) (a : Option JSON) (b : Option (Option String))
        (c d : Option (Option JSONSchema)) (e : Option (Option String))
        (f : Option JSON) (n : JSONSchema),
        s.copy a b c d e f = .ok n → n.schema.isObj = true)
  ∧ (∀ (s : JSONSchema) (r : String) (n : JSONSchema),
        s.contextNode.schema.isObj = true → s.getReference r = .ok n →
        n.schema.isObj = true) := by
  refine ⟨?_, ?_, ?_, ?_, ?_⟩
  · intro frag m c p nm md h
    unfold JSONSchema.init
    rw [if_neg (by simp [h])]
  · intro frag m c p nm md n h
    exact init_ok_isObj h
  · intro s frag nm md n h
    exact makeChild_ok_isObj h
  · intro s a b c d e f n h
    exact init_ok_isObj h
  · intro s r n hctx h
    rcases getReference_ok_cases h with rfl | hobj
    · exact hctx
    · exact hobj

/-- C9, witness: the string fragment is rejected with the mapping-check
error, and resolving `#` on the empty root returns a node wrapping a
mapping. -/
theorem nodes_always_wrap_mappings_witness :
    JSONSchema.init (.str "notadict") none none none none none = .error .notADict ∧
    emptyNode.getReference "#" = .ok emptyNode ∧
    (JSONSchema.schema emptyNode).isObj = true :=
  ⟨nodes_always_wrap_mappings.1 (.str "notadict") none none none none none rfl,
   rfl,
   nodes_always_wrap_mappings.2.2.2.2 emptyNode "#" emptyNode rfl rfl⟩

/-- C10: the trait-like and object-like predicates are not complements —
both are false on the empty fragment (type defaults to `"object"`, no
properties, no `$ref`, no composition keyword), and both are true on a
fragment declaring `properties` together with `type: "string"`. -/
theorem trait_and_object_not_complementary :
    reallyIsTrait 9 emptyNode = some (.ok false) ∧
    reallyIsObject 9 emptyNode = some (.ok false) ∧
    reallyIsTrait 9 traitObjNode = some (.ok true) ∧
    reallyIsObject 9 traitObjNode = some (.ok true) :=
  ⟨rfl, rfl, rfl, rfl⟩

end Schemaperfect
